import Mathlib

/-!
Verification of `boc_exchange_rate_parser.py` (Bank of China exchange-rate
scraper).  The Python program is shallowly embedded: HTML documents are
modelled by the data the parser actually inspects (the rows of the located table,
each row as the list of its `td` cell texts), the network by a per-attempt
outcome, Python exceptions by `Option`, Python floats by `ℚ`, and the
filesystem touched by `save_to_csv` by an explicit state record.
-/

namespace Boc

/-- Record mirroring the dict built at
`boc_exchange_rate_parser.py:49-58`: currency name, five rates (each the raw
cell value divided by 100), the published time text and the capture
timestamp. -/
structure ExchangeRateRecord where
  currencyName : String
  buyingRate : ℚ
  cashBuyingRate : ℚ
  sellingRate : ℚ
  cashSellingRate : ℚ
  middleRate : ℚ
  pubTime : String
  timestamp : String
deriving DecidableEq

/-- The part of the fetched HTML document the parser inspects:
`tableRows = none` models `soup.find` returning no table with
the fixed width/cellpadding/cellspacing signature (line 41); `some rows`
models the located table, where `rows` lists the `tr` elements of the table in
order and each element is the list of the trimmed-later texts of its `td`
cells (the `find_all` on `td` of line 47).  A `tr` holding only `th` cells is a
row whose cell list is empty. -/
structure Document where
  tableRows : Option (List (List String))
deriving DecidableEq

/-- Outcome of one `requests.get` + `raise_for_status` (lines 37-38):
`failure` is a network error or a non-success HTTP status (both raise, and
are caught by the `except` at line 62); `success doc` carries the parsed
document. -/
inductive FetchResult where
  | failure : FetchResult
  | success : Document → FetchResult
deriving DecidableEq

/-- Model of Python `str.strip()` as used on cell texts (lines 48, 51-56):
drop leading and trailing whitespace characters. -/
def pyStrip (s : String) : String :=
  ⟨(((s.data.dropWhile Char.isWhitespace).reverse).dropWhile Char.isWhitespace).reverse⟩

/-- Digit accumulator for `parseFloat`: consumes the whole list, failing on
the first non-digit character. -/
def parseNatAux : Nat → List Char → Option Nat
  | acc, [] => some acc
  | acc, c :: cs => if c.isDigit then parseNatAux (acc * 10 + (c.toNat - 48)) cs else none

/-- Model of Python `float(t)` on the (already stripped, nonempty) cell
text: an optional sign, then decimal digits with at most one decimal point
(at least one digit overall).  Exotic spellings `float` also accepts
(exponents, `inf`, `nan`, underscores) are modelled as parse failures; the
cells of the source never carry them and every claim uses this same parser on
both sides. -/
def parseFloat (s : String) : Option ℚ :=
  let cs := s.data
  let signed : ℚ × List Char :=
    match cs with
    | '-' :: rest => (-1, rest)
    | '+' :: rest => (1, rest)
    | _ => (1, cs)
  let intPart := signed.2.takeWhile (fun c => c ≠ '.')
  match signed.2.dropWhile (fun c => c ≠ '.') with
  | [] =>
    if intPart.isEmpty then none
    else (parseNatAux 0 intPart).map (fun n => signed.1 * n)
  | _ :: fracPart =>
    if intPart.isEmpty && fracPart.isEmpty then none
    else
      match parseNatAux 0 intPart, parseNatAux 0 fracPart with
      | some ip, some fp =>
        some (signed.1 * ((ip : ℚ) + (fp : ℚ) / (10 : ℚ) ^ fracPart.length))
      | _, _ => none

/-- Value of one rate cell, `float(cells[i].text.strip() or 0)` of lines
51-55: the trimmed cell text, with the empty string treated as the number
`0` (the Python `or 0` on a falsy string), otherwise parsed as a float. -/
def cellValue (s : String) : Option ℚ :=
  let t := pyStrip s
  if t = "" then some 0 else parseFloat t

/-- The guard of line 48 (`cells` nonempty and the stripped text of
`cells[0]` equal to "USD"), generalised over the currency code: true iff
the cell list is nonempty and the trimmed text of its first cell equals
`code`. -/
def matchesCode (code : String) : List String → Bool
  | [] => false
  | c :: _ => pyStrip c == code

/-- Building the record from a matched row (lines 49-58).  Each `cells[i]`
access can raise `IndexError` and each `float` can raise `ValueError`; both
abort the attempt, so the result is `none` unless cells 1-6 exist and cells
1-5 parse.  `now` stands for the formatted `datetime.now()` of line 57. -/
def parseRow (code now : String) (cells : List String) : Option ExchangeRateRecord :=
  (cells.get? 1).bind fun s1 => (cellValue s1).bind fun v1 =>
  (cells.get? 2).bind fun s2 => (cellValue s2).bind fun v2 =>
  (cells.get? 3).bind fun s3 => (cellValue s3).bind fun v3 =>
  (cells.get? 4).bind fun s4 => (cellValue s4).bind fun v4 =>
  (cells.get? 5).bind fun s5 => (cellValue s5).bind fun v5 =>
  (cells.get? 6).map fun s6 =>
    { currencyName := code
      buyingRate := v1 / 100
      cashBuyingRate := v2 / 100
      sellingRate := v3 / 100
      cashSellingRate := v4 / 100
      middleRate := v5 / 100
      pubTime := pyStrip s6
      timestamp := now }

/-- The row loop (lines 46-60) over the rows after the header: return the
record of the first row matching `code`; if that row fails to parse the
exception aborts the attempt (no fall-through to later rows); if the loop
ends, `raise Exception("USD rate not found in the table")` makes the attempt
fail. -/
def findAndParse (code now : String) : List (List String) → Option ExchangeRateRecord
  | [] => none
  | cells :: rest =>
    if matchesCode code cells then parseRow code now cells
    else findAndParse code now rest

/-- One whole `try` body (lines 37-60): a transport failure, a missing
table, a missing matching row, or a row that fails to parse all make the
attempt fail (`none`); `rows.drop 1` models the `[1:]` slice of line 46. -/
def attemptResult (r : FetchResult) (code now : String) : Option ExchangeRateRecord :=
  match r with
  | .failure => none
  | .success doc =>
    match doc.tableRows with
    | none => none
    | some rows => findAndParse code now (rows.drop 1)

/-- Retry bound `self.max_retries = 3` (line 29). -/
def maxRetries : Nat := 3

/-- Retry delay `self.retry_delay = 5` seconds (line 30). -/
def retryDelay : Nat := 5

/-- Log entries emitted by `get_exchange_rates`; message texts are
abstracted to their identity.  `attemptFailed n` is
`logging.error(f"Attempt {n} failed: ...")` (line 63), `retrying` is the
`logging.info(f"Retrying in ...")` at line 65, `maxRetriesReached` the
`logging.error("Max retries reached. Giving up.")` at line 68. -/
inductive LogEntry where
  | attemptFailed : Nat → LogEntry
  | retrying : LogEntry
  | maxRetriesReached : LogEntry
deriving DecidableEq

/-- Observable outcome of `get_exchange_rates`: the returned value, the log
entries in order, the `time.sleep` delays in order, and how many attempt
bodies ran. -/
structure FetchTrace where
  result : Option ExchangeRateRecord
  logs : List LogEntry
  sleeps : List Nat
  attemptsMade : Nat
deriving DecidableEq

/-- The retry loop `for attempt in range(self.max_retries)` (lines 35-69).
`env i` is the outcome of the HTTP request of attempt index `i`; `fuel` is
the number of iterations left (`maxRetries - attempt`), so `attempt <
max_retries - 1` (line 64) is `fuel ≥ 2`.  On success the record is
returned at once; on failure the attempt is logged, and either the loop
retries after sleeping `delay`, or (last iteration) logs the terminal entry
and returns `None`. -/
def loopFuel (env : Nat → FetchResult) (code now : String) (delay : Nat) :
    Nat → Nat → FetchTrace
  | _, 0 => ⟨none, [], [], 0⟩
  | attempt, fuel + 1 =>
    match attemptResult (env attempt) code now with
    | some rec => ⟨some rec, [], [], 1⟩
    | none =>
      match fuel with
      | 0 => ⟨none, [.attemptFailed (attempt + 1), .maxRetriesReached], [], 1⟩
      | f + 1 =>
        let t := loopFuel env code now delay (attempt + 1) (f + 1)
        ⟨t.result, .attemptFailed (attempt + 1) :: .retrying :: t.logs,
          delay :: t.sleeps, t.attemptsMade + 1⟩

/-- Whole `get_exchange_rates` (lines 33-69): run the retry loop from attempt 0
with the fixed currency code "USD", retry delay and retry bound. -/
def getExchangeRates (env : Nat → FetchResult) (now : String) : FetchTrace :=
  loopFuel env "USD" now retryDelay 0 maxRetries

/-- The `fieldnames` list of `save_to_csv` (lines 80-89), in source order. -/
def fieldnames : List String :=
  ["Currency Name", "Buying Rate", "Cash Buying Rate", "Selling Rate",
   "Cash Selling Rate", "Middle Rate", "Pub Time", "Timestamp"]

/-- Python `f"{x:.4f}"` (lines 98-102) over the rational model: the value
scaled by `10 ^ 4` and rounded to the nearest integer, printed with a sign,
the integer part, a point, and exactly the four fractional digits.  (CPython
rounds the underlying binary double half-to-even; on the exact rationals the
program produces, no tie ever arises, and this model uses `round`.) -/
def fixed4 (q : ℚ) : String :=
  let n : ℤ := round (q * 10000)
  let sign := if n < 0 then "-" else ""
  let m := n.natAbs
  let digit : Nat → Char := fun d => Char.ofNat (48 + d)
  sign ++ toString (m / 10000) ++ "." ++
    String.mk [digit (m / 1000 % 10), digit (m / 100 % 10),
               digit (m / 10 % 10), digit (m % 10)]

/-- The header line `csv.DictWriter.writeheader` emits (line 93): the field
names joined by the tab delimiter of line 90. -/
def headerLine : String := String.intercalate "\t" fieldnames

/-- The fields of `formatted_data` (lines 96-105) in `fieldnames` order:
the five rates rendered by `fixed4`, the other three fields verbatim. -/
def recordFields (r : ExchangeRateRecord) : List String :=
  [r.currencyName, fixed4 r.buyingRate, fixed4 r.cashBuyingRate,
   fixed4 r.sellingRate, fixed4 r.cashSellingRate, fixed4 r.middleRate,
   r.pubTime, r.timestamp]

/-- The data line `writer.writerow(formatted_data)` emits (line 106):
the formatted fields joined by the tab delimiter. -/
def dataRow (r : ExchangeRateRecord) : String :=
  String.intercalate "\t" (recordFields r)

/-- The filesystem state `save_to_csv` touches: whether the data directory
exists, and the lines of the output file (`none` while
`os.path.isfile(self.output_file)` is false). -/
structure FsState where
  dirExists : Bool
  file : Option (List String)
deriving DecidableEq

/-- Sink writer `save_to_csv` (lines 71-108): return unchanged on falsy input (line 73);
otherwise create the data directory, open the file in append mode (creating
it), write the header iff the file did not exist (lines 77, 92-93), and
append the formatted row. -/
def saveToCsv (data : Option ExchangeRateRecord) (s : FsState) : FsState :=
  match data with
  | none => s
  | some r =>
    let fileExists := s.file.isSome
    let lines := s.file.getD []
    ⟨true, some ((lines ++ if fileExists then [] else [headerLine]) ++ [dataRow r])⟩

/-- Run-level log entries of `run` (lines 110-119) and of the save step
(line 108), message texts abstracted. -/
inductive RunLog where
  | fetching : RunLog
  | middleRateInfo : ℚ → RunLog
  | saved : RunLog
  | fetchFailed : RunLog
deriving DecidableEq

/-- Orchestration `run` (lines 110-119): announce the fetch, call `get_exchange_rates`,
and either save the record (logging the middle rate and the save) or log the
failure and leave the filesystem untouched. -/
def run (env : Nat → FetchResult) (now : String) (s : FsState) :
    FsState × List RunLog :=
  let tr := getExchangeRates env now
  match tr.result with
  | some r => (saveToCsv (some r) s, [.fetching, .middleRateInfo r.middleRate, .saved])
  | none => (s, [.fetching, .fetchFailed])

/-- N successive `save_to_csv` calls in order (one per run). -/
def appendAll (recs : List ExchangeRateRecord) (s : FsState) : FsState :=
  recs.foldl (fun st r => saveToCsv (some r) st) s

/-- Recogniser of `LogEntry.attemptFailed`: the per-attempt failure entries of
the log (the `logging.error(f"Attempt ...")` lines). -/
def isAttemptFailureLog : LogEntry → Bool
  | .attemptFailed _ => true
  | _ => false

/-- Recogniser of `LogEntry.maxRetriesReached`: the terminal failure entry. -/
def isTerminalLog : LogEntry → Bool
  | .maxRetriesReached => true
  | _ => false

/-- A sample located table: a header row and a USD data row with
integer-scaled rate texts. -/
def sampleRows : List (List String) :=
  [["Currency Name", "Buying Rate", "Cash Buying Rate", "Selling Rate",
    "Cash Selling Rate", "Middle Rate", "Pub Time"],
   ["USD", "680", "675", "683", "686", "681.5", " 2025.04.18 09:30:00 "]]

/-- A sample well-formed document holding `sampleRows`. -/
def sampleDoc : Document := ⟨some sampleRows⟩

/-- An environment whose every request returns `sampleDoc`. -/
def sampleEnv : Nat → FetchResult := fun _ => .success sampleDoc

/-- An environment whose every request fails at the transport level. -/
def failEnv : Nat → FetchResult := fun _ => .failure

/-- A document in which the structural table lookup finds nothing. -/
def emptyDoc : Document := ⟨none⟩

/-- A document whose USD row has a malformed buying-rate cell. -/
def badRowDoc : Document :=
  ⟨some [["Currency Name", "Buying Rate"],
         ["USD", "abc", "1", "2", "3", "4", "t"]]⟩

/-- A sample record handed to the sink writer. -/
def sampleRecord : ExchangeRateRecord :=
  ⟨"USD", 680 / 100, 675 / 100, 683 / 100, 686 / 100, 1363 / 2 / 100,
   "2025.04.18 09:30:00", "2025-04-18 09:31:02"⟩

lemma findAndParse_eq_find (code now : String) :
    ∀ l : List (List String),
      findAndParse code now l
        = (l.find? (matchesCode code)).bind (fun cells => parseRow code now cells)
  | [] => rfl
  | cells :: rest => by
    rw [findAndParse, List.find?]
    cases h : matchesCode code cells with
    | true => simp
    | false => simp [findAndParse_eq_find code now rest]

lemma findAndParse_none_of_all (code now : String) (l : List (List String))
    (h : ∀ c ∈ l, matchesCode code c = false) :
    findAndParse code now l = none := by
  induction l with
  | nil => rfl
  | cons c rest ih =>
    rw [findAndParse, h c (by simp)]
    simp only [Bool.false_eq_true, if_false]
    exact ih (fun c hc => h c (List.mem_cons_of_mem _ hc))

lemma parseRow_none_of_no6 (code now : String) (cells : List String)
    (h6 : cells.get? 6 = none) : parseRow code now cells = none := by
  simp only [parseRow, Option.bind_eq_none, Option.map_eq_none', h6]
  intros
  trivial

lemma parseRow_none_of_bad (code now : String) (cells : List String)
    (i : Nat) (s : String) (hi : i ∈ [1, 2, 3, 4, 5])
    (hg : cells.get? i = some s) (hv : cellValue s = none) :
    parseRow code now cells = none := by
  simp only [List.mem_cons, List.not_mem_nil, or_false] at hi
  rcases hi with rfl | rfl | rfl | rfl | rfl <;>
    · simp only [parseRow, Option.bind_eq_none, hg, hv]
      intros
      simp_all

lemma loop_all_fail (env : Nat → FetchResult) (now : String)
    (h : ∀ i, i < maxRetries → attemptResult (env i) "USD" now = none) :
    getExchangeRates env now =
      ⟨none,
       [.attemptFailed 1, .retrying, .attemptFailed 2, .retrying,
        .attemptFailed 3, .maxRetriesReached],
       [retryDelay, retryDelay], 3⟩ := by
  have h0 := h 0 (by decide)
  have h1 := h 1 (by decide)
  have h2 := h 2 (by decide)
  simp [getExchangeRates, maxRetries, loopFuel, h0, h1, h2]

/-- C1.  For every well-formed source document whose located table has a
data row for the requested code ("USD", fixed in this system) with
parsable cells, `get_exchange_rates` returns the record whose five rate
fields are the trimmed texts of cells 1-5 parsed as floats and divided by
100, and whose published-time field is the trimmed text of cell 6. -/
theorem usd_row_maps_to_record (env : Nat → FetchResult) (now : String)
    (doc : Document) (rows : List (List String)) (cells : List String)
    (s1 s2 s3 s4 s5 s6 : String) (v1 v2 v3 v4 v5 : ℚ)
    (henv : env 0 = .success doc)
    (htab : doc.tableRows = some rows)
    (hfind : (rows.drop 1).find? (matchesCode "USD") = some cells)
    (h1 : cells.get? 1 = some s1) (hv1 : cellValue s1 = some v1)
    (h2 : cells.get? 2 = some s2) (hv2 : cellValue s2 = some v2)
    (h3 : cells.get? 3 = some s3) (hv3 : cellValue s3 = some v3)
    (h4 : cells.get? 4 = some s4) (hv4 : cellValue s4 = some v4)
    (h5 : cells.get? 5 = some s5) (hv5 : cellValue s5 = some v5)
    (h6 : cells.get? 6 = some s6) :
    (getExchangeRates env now).result =
      some ⟨"USD", v1 / 100, v2 / 100, v3 / 100, v4 / 100, v5 / 100,
            pyStrip s6, now⟩ := by
  have hatt : attemptResult (env 0) "USD" now =
      some ⟨"USD", v1 / 100, v2 / 100, v3 / 100, v4 / 100, v5 / 100,
            pyStrip s6, now⟩ := by
    rw [henv]
    simp only [attemptResult, htab]
    rw [findAndParse_eq_find, hfind]
    simp only [Option.some_bind, parseRow, h1, hv1, h2, hv2, h3, hv3, h4, hv4,
      h5, hv5, h6, Option.some_bind, Option.map_some']
  simp [getExchangeRates, maxRetries, loopFuel, hatt]

/-- C1 witness: a concrete document whose USD row carries the
integer-scaled texts 680/675/683/686/681.5 and a timestamp cell. -/
theorem usd_row_maps_to_record_witness :
    sampleEnv 0 = .success sampleDoc ∧
    sampleDoc.tableRows = some sampleRows ∧
    (sampleRows.drop 1).find? (matchesCode "USD")
      = some ["USD", "680", "675", "683", "686", "681.5", " 2025.04.18 09:30:00 "] ∧
    cellValue "680" = some 680 ∧
    cellValue "681.5" = some (1363 / 2) ∧
    (getExchangeRates sampleEnv "2025-04-18 09:31:02").result
      = some ⟨"USD", 680 / 100, 675 / 100, 683 / 100, 686 / 100, 1363 / 2 / 100,
              "2025.04.18 09:30:00", "2025-04-18 09:31:02"⟩ := by
  refine ⟨rfl, rfl, by decide, ?_, ?_, ?_⟩
  · simp [cellValue, pyStrip, parseFloat, parseNatAux]
  · simp [cellValue, pyStrip, parseFloat, parseNatAux]
    norm_num
  · have hmain := usd_row_maps_to_record sampleEnv "2025-04-18 09:31:02"
      sampleDoc sampleRows
      ["USD", "680", "675", "683", "686", "681.5", " 2025.04.18 09:30:00 "]
      "680" "675" "683" "686" "681.5" " 2025.04.18 09:30:00 "
      680 675 683 686 (1363 / 2)
      rfl rfl (by decide)
      rfl (by simp [cellValue, pyStrip, parseFloat, parseNatAux])
      rfl (by simp [cellValue, pyStrip, parseFloat, parseNatAux])
      rfl (by simp [cellValue, pyStrip, parseFloat, parseNatAux])
      rfl (by simp [cellValue, pyStrip, parseFloat, parseNatAux])
      rfl (by simp [cellValue, pyStrip, parseFloat, parseNatAux]; norm_num)
      rfl
    have hps : pyStrip " 2025.04.18 09:30:00 " = "2025.04.18 09:30:00" := by decide
    rw [hps] at hmain
    exact hmain

/-- C2.  One attempt on a document whose table was located iterates the
rows after the header (`drop 1`) and is exactly: find the first row whose
trimmed first cell equals the requested code and build its record,
the attempt failing when no such row exists (`find?` returns `none`) or
the matched row fails to parse.  The currency code is a parameter here;
`getExchangeRates` fixes it to "USD". -/
theorem first_matching_row_returned (code now : String) (doc : Document)
    (rows : List (List String))
    (htab : doc.tableRows = some rows) :
    attemptResult (.success doc) code now
      = ((rows.drop 1).find? (matchesCode code)).bind
          (fun cells => parseRow code now cells) := by
  simp only [attemptResult, htab]
  exact findAndParse_eq_find code now (rows.drop 1)

/-- C2 witness: the sample document, at the generic interface. -/
theorem first_matching_row_returned_witness :
    sampleDoc.tableRows = some sampleRows ∧
    attemptResult (.success sampleDoc) "USD" "T"
      = ((sampleRows.drop 1).find? (matchesCode "USD")).bind
          (fun cells => parseRow "USD" "T" cells) :=
  ⟨rfl, first_matching_row_returned "USD" "T" sampleDoc sampleRows rfl⟩

/-- C3.  Failures of any kind are absorbed uniformly: the operation makes
at most `max_retries = 3` attempts with a fixed `retry_delay = 5` sleep
between consecutive attempts; when every attempt fails it sleeps exactly
twice, makes exactly 3 attempts and returns `None` — and being a total
`Option`-valued function, nothing ever propagates out of it. -/
theorem retry_bound_delay_absorption (env : Nat → FetchResult) (now : String)
    (h : ∀ i, i < maxRetries → attemptResult (env i) "USD" now = none) :
    (getExchangeRates env now).result = none ∧
    (getExchangeRates env now).sleeps = [retryDelay, retryDelay] ∧
    (getExchangeRates env now).attemptsMade = maxRetries ∧
    (∀ e : Nat → FetchResult,
      (getExchangeRates e now).attemptsMade ≤ maxRetries ∧
      ((getExchangeRates e now).sleeps.all fun d => d == retryDelay) = true) := by
  rw [loop_all_fail env now h]
  refine ⟨rfl, rfl, rfl, ?_⟩
  intro e
  rcases e0 : attemptResult (e 0) "USD" now with _ | r0 <;>
  rcases e1 : attemptResult (e 1) "USD" now with _ | r1 <;>
  rcases e2 : attemptResult (e 2) "USD" now with _ | r2 <;>
  simp [getExchangeRates, maxRetries, retryDelay, loopFuel, e0, e1, e2]

/-- C3 witness: three transport failures. -/
theorem retry_bound_delay_absorption_witness :
    (∀ i, i < maxRetries → attemptResult (failEnv i) "USD" "T" = none) ∧
    (getExchangeRates failEnv "T").result = none ∧
    (getExchangeRates failEnv "T").sleeps = [retryDelay, retryDelay] ∧
    (getExchangeRates failEnv "T").attemptsMade = maxRetries :=
  ⟨fun _ _ => rfl,
   (retry_bound_delay_absorption failEnv "T" (fun _ _ => rfl)).1,
   (retry_bound_delay_absorption failEnv "T" (fun _ _ => rfl)).2.1,
   (retry_bound_delay_absorption failEnv "T" (fun _ _ => rfl)).2.2.1⟩

/-- C4.  A document with no matching table, or with a table holding no
USD row, makes every attempt fail: the operation returns `None` after
emitting exactly `max_retries` per-attempt failure entries and exactly one
terminal failure entry. -/
theorem missing_table_or_row_exhausts (doc : Document) (now : String)
    (h : doc.tableRows = none ∨
      ∃ rows, doc.tableRows = some rows ∧
        ∀ c ∈ rows.drop 1, matchesCode "USD" c = false) :
    (getExchangeRates (fun _ => .success doc) now).result = none ∧
    ((getExchangeRates (fun _ => .success doc) now).logs.filter
        isAttemptFailureLog).length = maxRetries ∧
    ((getExchangeRates (fun _ => .success doc) now).logs.filter
        isTerminalLog).length = 1 := by
  have hatt : attemptResult (.success doc) "USD" now = none := by
    rcases h with hnone | ⟨rows, hrows, hall⟩
    · simp [attemptResult, hnone]
    · simp only [attemptResult, hrows]
      exact findAndParse_none_of_all _ _ _ hall
  rw [loop_all_fail _ _ (fun _ _ => hatt)]
  exact ⟨rfl, by decide, by decide⟩

/-- C4 witness: a document in which the table lookup finds nothing. -/
theorem missing_table_or_row_exhausts_witness :
    (emptyDoc.tableRows = none ∨
      ∃ rows, emptyDoc.tableRows = some rows ∧
        ∀ c ∈ rows.drop 1, matchesCode "USD" c = false) ∧
    (getExchangeRates (fun _ => .success emptyDoc) "T").result = none ∧
    ((getExchangeRates (fun _ => .success emptyDoc) "T").logs.filter
        isAttemptFailureLog).length = maxRetries ∧
    ((getExchangeRates (fun _ => .success emptyDoc) "T").logs.filter
        isTerminalLog).length = 1 :=
  ⟨Or.inl rfl, missing_table_or_row_exhausts emptyDoc "T" (Or.inl rfl)⟩

/-- C5.  Extraction is atomic: the result type already allows only a whole
record or `None`, and a row that matches the code but cannot be fully
parsed — a rate/timestamp cell missing (fewer than 7 cells) or a rate cell
whose text is numeric garbage — fails the whole attempt, and with it the
whole operation, rather than yield a partial record. -/
theorem extraction_atomic (now : String) (doc : Document)
    (rows : List (List String)) (cells : List String)
    (htab : doc.tableRows = some rows)
    (hfind : (rows.drop 1).find? (matchesCode "USD") = some cells)
    (hbad : cells.get? 6 = none ∨
      ∃ i s, i ∈ [1, 2, 3, 4, 5] ∧ cells.get? i = some s ∧ cellValue s = none) :
    attemptResult (.success doc) "USD" now = none ∧
    (getExchangeRates (fun _ => .success doc) now).result = none := by
  have hrow : parseRow "USD" now cells = none := by
    rcases hbad with h6 | ⟨i, s, hi, hg, hv⟩
    · exact parseRow_none_of_no6 _ _ _ h6
    · exact parseRow_none_of_bad _ _ _ i s hi hg hv
  have hatt : attemptResult (.success doc) "USD" now = none := by
    simp only [attemptResult, htab]
    rw [findAndParse_eq_find, hfind]
    simp [hrow]
  exact ⟨hatt, by rw [loop_all_fail _ _ (fun _ _ => hatt)]⟩

/-- C5 witness: a USD row whose buying-rate cell reads "abc". -/
theorem extraction_atomic_witness :
    badRowDoc.tableRows = some [["Currency Name", "Buying Rate"],
      ["USD", "abc", "1", "2", "3", "4", "t"]] ∧
    (([["Currency Name", "Buying Rate"],
       ["USD", "abc", "1", "2", "3", "4", "t"]].drop 1).find? (matchesCode "USD"))
      = some ["USD", "abc", "1", "2", "3", "4", "t"] ∧
    cellValue "abc" = none ∧
    attemptResult (.success badRowDoc) "USD" "T" = none ∧
    (getExchangeRates (fun _ => .success badRowDoc) "T").result = none := by
  refine ⟨rfl, by decide, ?_, ?_⟩
  · simp [cellValue, pyStrip, parseFloat, parseNatAux]
  · exact extraction_atomic "T" badRowDoc
      [["Currency Name", "Buying Rate"], ["USD", "abc", "1", "2", "3", "4", "t"]]
      ["USD", "abc", "1", "2", "3", "4", "t"] rfl (by decide)
      (Or.inr ⟨1, "abc", by simp, rfl,
        by simp [cellValue, pyStrip, parseFloat, parseNatAux]⟩)

/-- C6.  A rate cell whose trimmed text is empty is the number zero, not a
parse failure (Python evaluates the or-expression to the integer 0), and zero divided by 100 formats as
`0.0000`. -/
theorem empty_cell_is_zero (s : String) (h : pyStrip s = "") :
    cellValue s = some 0 ∧ fixed4 ((0 : ℚ) / 100) = "0.0000" := by
  constructor
  · simp [cellValue, h]
  · have h0 : (0 : ℚ) / 100 = 0 := by norm_num
    rw [h0]
    have hr : round ((0 : ℚ) * 10000) = 0 := by rw [round_eq]; norm_num
    simp only [fixed4, hr]
    decide

/-- C6 witness: a cell of two spaces. -/
theorem empty_cell_is_zero_witness :
    pyStrip "  " = "" ∧ cellValue "  " = some 0 ∧
    fixed4 ((0 : ℚ) / 100) = "0.0000" :=
  ⟨by decide, (empty_cell_is_zero "  " (by decide)).1,
   (empty_cell_is_zero "  " (by decide)).2⟩

lemma appendAll_file_some (recs : List ExchangeRateRecord) :
    ∀ (d : Bool) (ls : List String),
      (appendAll recs ⟨d, some ls⟩).file = some (ls ++ recs.map dataRow) := by
  induction recs with
  | nil => intro d ls; simp [appendAll]
  | cons r rest ih =>
    intro d ls
    have hstep : saveToCsv (some r) ⟨d, some ls⟩
        = ⟨true, some (ls ++ [dataRow r])⟩ := by
      simp [saveToCsv]
    show (appendAll rest (saveToCsv (some r) ⟨d, some ls⟩)).file = _
    rw [hstep, ih true (ls ++ [dataRow r])]
    simp

lemma digitChar_isDigit : ∀ d : Nat, d < 10 → (Char.ofNat (48 + d)).isDigit = true := by
  decide

/-- C7.  Header-once invariant: appending N ≥ 1 records starting from an
absent file yields exactly one header line followed by the N data rows in
call order; and a single append writes the header exactly when the file
does not yet exist, only ever appending otherwise. -/
theorem header_once (recs : List ExchangeRateRecord) (d : Bool)
    (h : recs ≠ []) :
    (appendAll recs ⟨d, none⟩).file = some (headerLine :: recs.map dataRow) ∧
    (∀ (r : ExchangeRateRecord) (st : FsState), st.file = none →
      (saveToCsv (some r) st).file = some [headerLine, dataRow r]) ∧
    (∀ (r : ExchangeRateRecord) (st : FsState) (ls : List String),
      st.file = some ls →
      (saveToCsv (some r) st).file = some (ls ++ [dataRow r])) := by
  refine ⟨?_, ?_, ?_⟩
  · match recs, h with
    | r :: rest, _ =>
      have hstep : saveToCsv (some r) ⟨d, none⟩
          = ⟨true, some [headerLine, dataRow r]⟩ := by
        simp [saveToCsv]
      show (appendAll rest (saveToCsv (some r) ⟨d, none⟩)).file = _
      rw [hstep, appendAll_file_some rest true [headerLine, dataRow r]]
      simp
  · intro r st hst
    rcases st with ⟨sd, sf⟩
    cases hst
    simp [saveToCsv]
  · intro r st ls hst
    rcases st with ⟨sd, sf⟩
    cases hst
    simp [saveToCsv]

/-- C7 witness: one record appended to a fresh destination. -/
theorem header_once_witness :
    ([sampleRecord] ≠ []) ∧
    (appendAll [sampleRecord] ⟨false, none⟩).file
      = some (headerLine :: [sampleRecord].map dataRow) :=
  ⟨by simp, (header_once [sampleRecord] false (by simp)).1⟩

/-- C8.  Every data row holds the fields of the record joined by tabs in the fixed
header order (name, the five rates, pub time, timestamp), and every
formatted rate consists of an integer part, a point, and exactly four
decimal digits, whatever the rational carried internally. -/
theorem row_format_four_decimals :
    (∀ r : ExchangeRateRecord,
      dataRow r = String.intercalate "\t"
        [r.currencyName, fixed4 r.buyingRate, fixed4 r.cashBuyingRate,
         fixed4 r.sellingRate, fixed4 r.cashSellingRate, fixed4 r.middleRate,
         r.pubTime, r.timestamp]) ∧
    headerLine = String.intercalate "\t" fieldnames ∧
    (∀ q : ℚ, ∃ intText fracText : String,
      fixed4 q = intText ++ "." ++ fracText ∧
      fracText.length = 4 ∧ fracText.data.all Char.isDigit = true) := by
  refine ⟨fun r => rfl, rfl, fun q => ?_⟩
  simp only [fixed4]
  refine ⟨_, _, rfl, rfl, ?_⟩
  have h4 : ∀ x : Nat, (Char.ofNat (48 + x % 10)).isDigit = true :=
    fun x => digitChar_isDigit (x % 10) (Nat.mod_lt _ (by norm_num))
  simp [h4]

/-- C9.  When the fetch comes back absent, the run only logs the failure:
the filesystem state (data directory and output file alike) is returned
untouched — no header, no data row, no directory creation. -/
theorem failed_fetch_writes_nothing (env : Nat → FetchResult) (now : String)
    (s : FsState) (h : (getExchangeRates env now).result = none) :
    run env now s = (s, [RunLog.fetching, RunLog.fetchFailed]) := by
  simp [run, h]

/-- C9 witness: three transport failures leave an arbitrary starting state
(here: no directory, no file) unchanged. -/
theorem failed_fetch_writes_nothing_witness :
    (getExchangeRates failEnv "T").result = none ∧
    run failEnv "T" ⟨false, none⟩
      = (⟨false, none⟩, [RunLog.fetching, RunLog.fetchFailed]) :=
  ⟨rfl, failed_fetch_writes_nothing failEnv "T" ⟨false, none⟩ rfl⟩

/-- C10.  A row with no `td` cells fails the `cells and ...` guard (the
comparison with `cells[0]` is never reached), and the loop just moves on:
such a row leaves the outcome of the attempt unchanged and never aborts it. -/
theorem cellless_row_skipped (code now : String) (rest : List (List String)) :
    matchesCode code [] = false ∧
    findAndParse code now ([] :: rest) = findAndParse code now rest := by
  constructor
  · rfl
  · simp [findAndParse, matchesCode]

end Boc
